/- Verification of the Syntari desktop IDE backend kernel (Rust, Tauri).
   Shallow embedding of the filesystem engine, search engine, scanner,
   watcher, PTY session manager and state kernel, with theorems checking
   the natural-language specification against the code.

   Conventions of the embedding:
   * machine integers (u64/usize/u32) are modelled as Nat; none of the
     arithmetic in the modelled code can overflow at the values involved;
   * filesystem and OS calls are abstracted: a file is a snapshot of its
     byte list, a directory walk is the list of entries the walker yields,
     `Path::canonicalize` and friends are supplied as oracle functions;
   * fallible Rust code returning Result is modelled with Except;
   * log statements and event emission to the UI are side channels and are
     dropped; string formatting of messages keeps the words of the source
     but drops interpolated values and quote characters where noted. -/
import Mathlib

set_option maxRecDepth 10000

/-- Prefix test on character lists, structurally recursive so that the
kernel can evaluate it on concrete strings. -/
def listIsPrefix : List Char → List Char → Bool
  | [], _ => true
  | _ :: _, [] => false
  | a :: as, b :: bs => a == b && listIsPrefix as bs

/-- Infix (substring) test on character lists. -/
def listIsInfix (pat : List Char) : List Char → Bool
  | [] => listIsPrefix pat []
  | c :: t => listIsPrefix pat (c :: t) || listIsInfix pat t

/-- Rust `str::contains` on plain substrings, modelled over the character
lists of the two strings. -/
def strContains (s pat : String) : Bool :=
  listIsInfix pat.data s.data

/-- Split a string at a separator character; used to talk about the
slash-separated segments of a path. -/
def splitCharAux (sep : Char) : List Char → List Char → List (List Char)
  | [], cur => [cur.reverse]
  | c :: rest, cur =>
    if c == sep then cur.reverse :: splitCharAux sep rest []
    else splitCharAux sep rest (c :: cur)

/-- The slash-separated segments of a path string. -/
def pathSegments (s : String) : List String :=
  (splitCharAux '/' s.data []).map (fun l => String.mk l)

instance {ε α : Type} [DecidableEq ε] [DecidableEq α] :
    DecidableEq (Except ε α) := fun a b =>
  match a, b with
  | .ok x, .ok y =>
    if h : x = y then .isTrue (by rw [h])
    else .isFalse (fun hh => by cases hh; exact h rfl)
  | .error x, .error y =>
    if h : x = y then .isTrue (by rw [h])
    else .isFalse (fun hh => by cases hh; exact h rfl)
  | .ok _, .error _ => .isFalse (fun hh => by cases hh)
  | .error _, .ok _ => .isFalse (fun hh => by cases hh)

/-- The `TauriResult` envelope from `core/types.rs`: success flag plus
optional data and optional error string. -/
structure TauriResult (α : Type) where
  success : Bool
  data : Option α
  error : Option String
deriving Repr, DecidableEq

/-- Constructor `TauriResult::success` from `core/types.rs`. -/
def TauriResult.mkSuccess {α : Type} (data : α) : TauriResult α :=
  ⟨true, some data, none⟩

/-- Constructor `TauriResult::error` from `core/types.rs`. -/
def TauriResult.mkError {α : Type} (message : String) : TauriResult α :=
  ⟨false, none, some message⟩

/- ================================================================
   C1 - smart file read (`filesystem/commands/file_ops.rs`,
   `read_file_smart_impl`)
   ================================================================ -/

/-- 64 MiB: `MAX_EDITOR_FILE_SIZE` in `file_ops.rs`. -/
def MAX_EDITOR_FILE_SIZE : Nat := 64 * 1024 * 1024

/-- 256 MiB: `MAX_SAFE_FILE_SIZE` in `file_ops.rs`. -/
def MAX_SAFE_FILE_SIZE : Nat := 256 * 1024 * 1024

/-- 1 MiB: `LARGE_FILE_WARNING` in `file_ops.rs`. -/
def LARGE_FILE_WARNING : Nat := 1024 * 1024

/-- The `FileReadResult` record of `file_ops.rs`. -/
structure FileReadResult where
  content : Option String
  size : Nat
  is_binary : Bool
  is_too_large : Bool
  should_use_hex_mode : Bool
  warning : Option String
deriving Repr, DecidableEq

/-- `read_file_smart_impl` from `file_ops.rs`, lines 76-158, for a file
that stats and reads successfully.  `bytes` is the snapshot of the file
(metadata size and read content agree on it); `decodeUtf8` abstracts the
strict-then-lossy UTF-8 decoding, which always yields a string for a
non-binary file.  Warning message texts are abbreviated (the source
interpolates the size into them); only their presence is specified. -/
def read_file_smart_impl (bytes : List Nat) (decodeUtf8 : List Nat → String) :
    FileReadResult :=
  let size := bytes.length
  if size > MAX_SAFE_FILE_SIZE then
    { content := none, size := size, is_binary := false, is_too_large := true,
      should_use_hex_mode := false,
      warning := some "File too large. Maximum supported size is 256 MB." }
  else if size > MAX_EDITOR_FILE_SIZE then
    { content := none, size := size, is_binary := false, is_too_large := false,
      should_use_hex_mode := true,
      warning := some "Large file. Opening in read-only hex mode for performance." }
  else
    let is_binary := (bytes.take 8192).any (· == 0)
    let file_content := if is_binary then none else some (decodeUtf8 bytes)
    let warning :=
      if size > LARGE_FILE_WARNING then
        some "Large file. Some features may be slower."
      else none
    { content := file_content, size := size, is_binary := is_binary,
      is_too_large := false, should_use_hex_mode := false, warning := warning }

/-- C1: the smart read disposition is determined by size and content
exactly as specified: `is_too_large` iff size > 256 MiB (strict), else
`should_use_hex_mode` iff size > 64 MiB (strict), else `is_binary` iff a
NUL byte occurs in the first 8 KiB; content is absent whenever any flag is
set; the three flags are pairwise disjoint; a warning is attached iff
size > 1 MiB. -/
theorem smart_read_disposition (bytes : List Nat) (decodeUtf8 : List Nat → String) :
    (read_file_smart_impl bytes decodeUtf8).size = bytes.length
    ∧ (read_file_smart_impl bytes decodeUtf8).is_too_large
        = decide (bytes.length > MAX_SAFE_FILE_SIZE)
    ∧ (read_file_smart_impl bytes decodeUtf8).should_use_hex_mode
        = (decide (bytes.length ≤ MAX_SAFE_FILE_SIZE)
            && decide (bytes.length > MAX_EDITOR_FILE_SIZE))
    ∧ (read_file_smart_impl bytes decodeUtf8).is_binary
        = (decide (bytes.length ≤ MAX_EDITOR_FILE_SIZE)
            && (bytes.take 8192).any (· == 0))
    ∧ (read_file_smart_impl bytes decodeUtf8).content.isNone
        = ((read_file_smart_impl bytes decodeUtf8).is_binary
            || (read_file_smart_impl bytes decodeUtf8).is_too_large
            || (read_file_smart_impl bytes decodeUtf8).should_use_hex_mode)
    ∧ ((read_file_smart_impl bytes decodeUtf8).is_too_large
        && (read_file_smart_impl bytes decodeUtf8).should_use_hex_mode) = false
    ∧ ((read_file_smart_impl bytes decodeUtf8).is_too_large
        && (read_file_smart_impl bytes decodeUtf8).is_binary) = false
    ∧ ((read_file_smart_impl bytes decodeUtf8).should_use_hex_mode
        && (read_file_smart_impl bytes decodeUtf8).is_binary) = false
    ∧ (read_file_smart_impl bytes decodeUtf8).warning.isSome
        = decide (bytes.length > LARGE_FILE_WARNING) := by
  have hms : MAX_EDITOR_FILE_SIZE ≤ MAX_SAFE_FILE_SIZE := by
    norm_num [MAX_EDITOR_FILE_SIZE, MAX_SAFE_FILE_SIZE]
  have hlw : LARGE_FILE_WARNING ≤ MAX_EDITOR_FILE_SIZE := by
    norm_num [LARGE_FILE_WARNING, MAX_EDITOR_FILE_SIZE]
  unfold read_file_smart_impl
  by_cases h1 : bytes.length > MAX_SAFE_FILE_SIZE
  · have h4 : LARGE_FILE_WARNING < bytes.length :=
      lt_of_le_of_lt (le_trans hlw hms) h1
    have h5 : ¬ bytes.length ≤ MAX_EDITOR_FILE_SIZE :=
      Nat.not_le.mpr (lt_of_le_of_lt hms h1)
    simp [h1, h4, h5, Nat.not_le.mpr h1]
  · by_cases h2 : bytes.length > MAX_EDITOR_FILE_SIZE
    · have h4 : LARGE_FILE_WARNING < bytes.length := lt_of_le_of_lt hlw h2
      simp [h1, h2, h4, Nat.not_le.mpr h2, Nat.not_lt.mp h1]
    · have hle : bytes.length ≤ MAX_EDITOR_FILE_SIZE := Nat.not_lt.mp h2
      by_cases h3 : (bytes.take 8192).any (· == 0)
      · simp [h1, h2, h3, hle, le_trans hle hms]
        by_cases h4 : LARGE_FILE_WARNING < bytes.length <;> simp [h4]
      · simp [h1, h2, h3, hle, le_trans hle hms]
        by_cases h4 : LARGE_FILE_WARNING < bytes.length <;> simp [h4]

/- ================================================================
   C3 - path-security gate (`filesystem/commands/file_ops.rs`,
   `validate_path_security`, lines 15-61)
   ================================================================ -/

/-- Oracle for the std `Path` operations the gate calls.  `canonicalize`
returns `none` when `Path::canonicalize` fails (e.g. the leaf does not
exist); `parent` and `fileName` model `Path::parent` / `Path::file_name`. -/
structure PathOracle where
  canonicalize : String → Option String
  parent : String → Option String
  fileName : String → Option String

/-- The system-directory substrings blocked by the gate. -/
def SYSTEM_DIR_PATTERNS : List String :=
  ["/etc/", "/proc/", "/sys/", "C:\\Windows\\", "C:\\System32\\"]

/-- `validate_path_security` from `file_ops.rs`.  The source rejects when
`path.to_string_lossy().contains("..")` - a plain substring test - then
canonicalizes (falling back to canonicalizing the parent and rejoining the
leaf, modelled as parent-path ++ "/" ++ leaf) and rejects when the
canonical string `contains` any blocked pattern.  Error strings keep the
words of the source minus quote characters. -/
def validate_path_security (ora : PathOracle) (path : String) :
    Except String String :=
  if strContains path ".." then
    .error "Path traversal not allowed: contains dot-dot"
  else
    let canonical? : Except String String :=
      match ora.canonicalize path with
      | some p => .ok p
      | none =>
        match ora.parent path with
        | some par =>
          match ora.canonicalize par with
          | some canonicalParent =>
            match ora.fileName path with
            | some filename => .ok (canonicalParent ++ "/" ++ filename)
            | none => .error "Invalid file path"
          | none => .error "Parent directory is not accessible"
        | none => .error "Invalid file path: no parent directory"
    match canonical? with
    | .error e => .error e
    | .ok canonical =>
      if SYSTEM_DIR_PATTERNS.any (fun pat => strContains canonical pat) then
        .error "Access to system directories is not allowed"
      else
        .ok canonical

/-- The gate rejects any input whose string contains ".." as a substring,
regardless of the oracle.  Shared by the C2 and C3 theorems. -/
theorem validate_rejects_dotdot (ora : PathOracle) (path : String)
    (h : strContains path ".." = true) :
    validate_path_security ora path
      = .error "Path traversal not allowed: contains dot-dot" := by
  unfold validate_path_security
  simp [h]

/-- An identity-flavoured path oracle for concrete evaluation: every path
canonicalizes to itself. -/
def idOracle : PathOracle :=
  { canonicalize := fun s => some s
    parent := fun _ => none
    fileName := fun _ => none }

/-- C3 counterexample: the input "a..b" contains no literal ".." path
segment (its only slash-separated segment is "a..b") and its canonical
form touches no protected prefix, yet the gate rejects it, because the
source tests for ".." as a plain substring of the whole path string.  So
the gate does not accept every input outside the classes named by the
claim. -/
theorem validate_path_security_substring_figure :
    ((pathSegments "a..b").all (fun seg => seg ≠ "..") = true)
    ∧ validate_path_security idOracle "a..b"
        = .error "Path traversal not allowed: contains dot-dot"
    ∧ (∀ res : String, validate_path_security idOracle "a..b" ≠ .ok res) := by
  refine ⟨by decide, by decide, ?_⟩
  intro res
  have h : validate_path_security idOracle "a..b"
      = .error "Path traversal not allowed: contains dot-dot" := by decide
  simp [h]

/-- C3 amended: the gate rejects exactly these inputs: every input
containing ".." as a substring anywhere (not only as a path segment), and
every input whose canonical path contains (not only starts with) one of
the system-protected patterns; for every other input whose
canonicalization succeeds (directly, or through the parent-plus-leaf
fallback) it returns the canonicalized path. -/
theorem validate_path_security_characterization (ora : PathOracle)
    (path canon : String) :
    (strContains path ".." = true →
      validate_path_security ora path
        = .error "Path traversal not allowed: contains dot-dot")
    ∧ (strContains path ".." = false → ora.canonicalize path = some canon →
        validate_path_security ora path
          = (if SYSTEM_DIR_PATTERNS.any (fun pat => strContains canon pat) then
              .error "Access to system directories is not allowed"
            else .ok canon))
    ∧ (∀ par cp fn, strContains path ".." = false →
        ora.canonicalize path = none → ora.parent path = some par →
        ora.canonicalize par = some cp → ora.fileName path = some fn →
        validate_path_security ora path
          = (if SYSTEM_DIR_PATTERNS.any
                (fun pat => strContains (cp ++ "/" ++ fn) pat) then
              .error "Access to system directories is not allowed"
            else .ok (cp ++ "/" ++ fn)))
    ∧ (validate_path_security ora path = .ok canon →
        strContains path ".." = false
        ∧ SYSTEM_DIR_PATTERNS.all (fun pat => !strContains canon pat) = true) := by
  refine ⟨?_, ?_, ?_, ?_⟩
  · intro h
    exact validate_rejects_dotdot ora path h
  · intro h hc
    unfold validate_path_security
    simp [h, hc]
  · intro par cp fn h hc hp hcp hfn
    unfold validate_path_security
    simp [h, hc, hp, hcp, hfn]
  · intro hok
    unfold validate_path_security at hok
    by_cases h : strContains path ".."
    · simp [h] at hok
    · refine ⟨by simp [h], ?_⟩
      simp only [h] at hok
      simp only [Bool.false_eq_true, if_false] at hok
      rcases hca : ora.canonicalize path with _ | p
      · rcases hpa : ora.parent path with _ | par
        · simp [hca, hpa] at hok
        · rcases hcp : ora.canonicalize par with _ | cp
          · simp [hca, hpa, hcp] at hok
          · rcases hfn : ora.fileName path with _ | fn
            · simp [hca, hpa, hcp, hfn] at hok
            · simp only [hca, hpa, hcp, hfn] at hok
              by_cases hs : SYSTEM_DIR_PATTERNS.any
                  (fun pat => strContains (cp ++ "/" ++ fn) pat)
              · simp [hs] at hok
              · simp only [hs, Bool.false_eq_true, if_false,
                  Except.ok.injEq] at hok
                subst hok
                simp only [List.all_eq_true]
                intro pat hpat
                simp only [List.any_eq_true, not_exists, not_and] at hs
                simp [hs pat hpat]
      · simp only [hca] at hok
        by_cases hs : SYSTEM_DIR_PATTERNS.any (fun pat => strContains p pat)
        · simp [hs] at hok
        · simp only [hs, Bool.false_eq_true, if_false, Except.ok.injEq] at hok
          subst hok
          simp only [List.all_eq_true]
          intro pat hpat
          simp only [List.any_eq_true, not_exists, not_and] at hs
          simp [hs pat hpat]

/-- Witness for the C3 amended theorem at a concrete oracle and input:
the path "home/user/file.txt" contains no "..", canonicalizes to itself
under the identity oracle, matches no protected pattern, and is accepted
with its canonical form returned. -/
theorem validate_path_security_characterization_witness :
    validate_path_security idOracle "home/user/file.txt"
      = .ok "home/user/file.txt" := by
  have h := (validate_path_security_characterization idOracle
    "home/user/file.txt" "home/user/file.txt").2.1 (by decide) (by decide)
  rw [h]
  decide

/- ================================================================
   C2 - which file/dir operations pass through the gate
   (`filesystem/commands/file_ops.rs`, `dir_ops.rs`)
   ================================================================ -/

/-- Prefix test on strings (Rust `str::starts_with`). -/
def strIsPrefix (pre s : String) : Bool :=
  listIsPrefix pre.data s.data

/-- A filesystem entry: a regular file with its content, or a directory. -/
inductive FsEntry where
  | file (content : String)
  | dir
deriving Repr, DecidableEq

/-- The filesystem, abstracted as a finite map from path strings to
entries. -/
abbrev Fs : Type := List (String × FsEntry)

/-- First-match lookup in a string-keyed association list. -/
def lookupKey {β : Type} : List (String × β) → String → Option β
  | [], _ => none
  | e :: rest, k => if e.1 == k then some e.2 else lookupKey rest k

/-- Remove a key from a string-keyed association list. -/
def eraseKey {β : Type} (m : List (String × β)) (k : String) :
    List (String × β) :=
  m.filter (fun e => e.1 != k)

/-- Insert-or-replace in a string-keyed association list. -/
def insertKey {β : Type} (m : List (String × β)) (k : String) (v : β) :
    List (String × β) :=
  eraseKey m k ++ [(k, v)]

/-- `Path::exists`. -/
def fsExists (fs : Fs) (p : String) : Bool :=
  (lookupKey fs p).isSome

/-- `std::fs::write`: overwrite-write a file (modelled as always
succeeding on the abstract filesystem). -/
def fsWrite (fs : Fs) (p content : String) : Fs :=
  insertKey fs p (FsEntry.file content)

/-- `std::fs::create_dir_all` on a missing parent (creation of the
intermediate ancestors is abstracted into the single entry for the
requested directory). -/
def fsMkdirAll (fs : Fs) (p : String) : Fs :=
  insertKey fs p FsEntry.dir

/-- True when the directory `p` has at least one entry strictly below
it. -/
def fsHasChildren (fs : Fs) (p : String) : Bool :=
  fs.any (fun e => strIsPrefix (p ++ "/") e.1)

/-- Remove an entry and everything strictly below it (`remove_dir_all`). -/
def fsRemoveTree (fs : Fs) (p : String) : Fs :=
  (eraseKey fs p).filter (fun e => !strIsPrefix (p ++ "/") e.1)

/-- `save_file_impl` from `file_ops.rs`, lines 185-196: the path passes
through `validate_path_security` before the write; a gate failure is
reported as a `TauriResult` error and nothing is written. -/
def save_file_impl (ora : PathOracle) (fs : Fs) (path content : String) :
    Fs × TauriResult String :=
  match validate_path_security ora path with
  | .error e => (fs, TauriResult.mkError ("Security validation failed: " ++ e))
  | .ok securePath =>
    (fsWrite fs securePath content, TauriResult.mkSuccess "File saved successfully")

/-- `delete_file` from `file_ops.rs`, lines 243-359: gate first, then
existence check, then file/dir removal (`force` selects recursive
directory removal; without it an empty-directory removal that fails is
reported as an error).  The two frontend events emitted on success are a
side channel and are dropped. -/
def delete_file (ora : PathOracle) (fs : Fs) (path : String) (force : Bool) :
    Fs × Except String String :=
  match validate_path_security ora path with
  | .error e => (fs, .error ("Security validation failed: " ++ e))
  | .ok securePath =>
    match lookupKey fs securePath with
    | none => (fs, .error ("File or directory does not exist: " ++ path))
    | some FsEntry.dir =>
      if force then
        (fsRemoveTree fs securePath, .ok ("Directory deleted: " ++ path))
      else if fsHasChildren fs securePath then
        (fs, .error "Failed to delete directory (may not be empty)")
      else
        (eraseKey fs securePath, .ok ("Directory deleted: " ++ path))
    | some (FsEntry.file _) =>
      (eraseKey fs securePath, .ok ("File deleted: " ++ path))

/-- `create_file_impl` from `file_ops.rs`, lines 201-239.  Note: the
source never calls `validate_path_security` here; it ensures the parent
directory (creating it if missing), rejects an existing file, and writes
the content (empty when not supplied) at the raw caller-supplied path. -/
def create_file_impl (ora : PathOracle) (fs : Fs) (path : String)
    (content : Option String) : Fs × Except String String :=
  let fs1 :=
    match ora.parent path with
    | some par => if fsExists fs par then fs else fsMkdirAll fs par
    | none => fs
  if fsExists fs1 path then (fs1, .error ("File already exists: " ++ path))
  else (fsWrite fs1 path (content.getD ""), .ok ("File created: " ++ path))

/-- `copy_file` from `file_ops.rs`, lines 382-436.  No gate: raw paths.
Directory copies recurse over everything below the source. -/
def copy_file (ora : PathOracle) (fs : Fs) (source target : String) :
    Fs × TauriResult String :=
  match lookupKey fs source with
  | none => (fs, TauriResult.mkError ("Source file does not exist: " ++ source))
  | some entry =>
    if fsExists fs target then
      (fs, TauriResult.mkError ("Target file already exists: " ++ target))
    else
      let fs1 :=
        match ora.parent target with
        | some par => if fsExists fs par then fs else fsMkdirAll fs par
        | none => fs
      match entry with
      | FsEntry.dir =>
        let sub := fs1.filterMap (fun e =>
          if strIsPrefix (source ++ "/") e.1 then
            some (target ++ String.mk (e.1.data.drop source.length), e.2)
          else none)
        (insertKey fs1 target FsEntry.dir ++ sub,
          TauriResult.mkSuccess ("Directory copied to " ++ target))
      | FsEntry.file c =>
        (fsWrite fs1 target c, TauriResult.mkSuccess ("File copied to " ++ target))

/-- `move_file` from `file_ops.rs`, lines 439-480.  No gate: raw paths.
The rename is modelled as re-keying the entry (and its subtree) from
source to target. -/
def move_file (ora : PathOracle) (fs : Fs) (source target : String) :
    Fs × TauriResult String :=
  match lookupKey fs source with
  | none => (fs, TauriResult.mkError ("Source file does not exist: " ++ source))
  | some entry =>
    if fsExists fs target then
      (fs, TauriResult.mkError ("Target file already exists: " ++ target))
    else
      let fs1 :=
        match ora.parent target with
        | some par => if fsExists fs par then fs else fsMkdirAll fs par
        | none => fs
      let moved := (fsRemoveTree fs1 source).append
        ((target, entry) :: fs1.filterMap (fun e =>
          if strIsPrefix (source ++ "/") e.1 then
            some (target ++ String.mk (e.1.data.drop source.length), e.2)
          else none))
      (moved, TauriResult.mkSuccess ("File moved to " ++ target))

/-- `create_directory` from `dir_ops.rs`, lines 369-391.  No gate: it
checks existence and calls `create_dir_all` on the raw path. -/
def create_directory (fs : Fs) (path : String) : Fs × Except String String :=
  if fsExists fs path then (fs, .error ("Directory already exists: " ++ path))
  else (fsMkdirAll fs path, .ok ("Directory created: " ++ path))

/-- Oracle for the C2 counterexample: the parent of "../pwn" is "..". -/
def oraC2 : PathOracle :=
  { canonicalize := fun _ => none
    parent := fun s => if s == "../pwn" then some ".." else none
    fileName := fun _ => none }

/-- A starting filesystem for the C2 counterexample in which the
traversal target directory ".." exists. -/
def fsC2 : Fs := [("..", FsEntry.dir)]

/-- C2 counterexample: `create_file_impl` (and likewise copy, move and
create-directory) never invokes the path-security gate; invoked with the
traversal path "../pwn" it succeeds and writes a file at the raw
traversal path, so the filesystem changes - contradicting the claim that
every listed operation rejects traversal paths and leaves the filesystem
unchanged. -/
theorem create_file_traversal_writes :
    strContains "../pwn" ".." = true
    ∧ (create_file_impl oraC2 fsC2 "../pwn" none).2 = .ok "File created: ../pwn"
    ∧ (create_file_impl oraC2 fsC2 "../pwn" none).1
        = [("..", FsEntry.dir), ("../pwn", FsEntry.file "")]
    ∧ (create_file_impl oraC2 fsC2 "../pwn" none).1 ≠ fsC2 := by
  refine ⟨by decide, by decide, by decide, by decide⟩

/-- C2 amended: of the operations named by the claim only save (and its
write alias) and delete pass the path through the security gate; for any
path containing ".." those two return an error and leave the filesystem
unchanged; create file, copy, move and create directory act on the raw
path without consulting the gate. -/
theorem gated_ops_reject_traversal (ora : PathOracle) (fs : Fs)
    (path content : String) (force : Bool)
    (h : strContains path ".." = true) :
    save_file_impl ora fs path content
      = (fs, TauriResult.mkError
          "Security validation failed: Path traversal not allowed: contains dot-dot")
    ∧ delete_file ora fs path force
      = (fs, .error
          "Security validation failed: Path traversal not allowed: contains dot-dot") := by
  unfold save_file_impl delete_file
  rw [validate_rejects_dotdot ora path h]
  exact ⟨rfl, rfl⟩

/-- Witness for the C2 amended theorem at the traversal path of the
spec's own scenario: saving to "../../etc/passwd" fails the gate and the
filesystem is unchanged. -/
theorem gated_ops_reject_traversal_witness :
    save_file_impl idOracle [] "../../etc/passwd" "x"
      = ([], TauriResult.mkError
          "Security validation failed: Path traversal not allowed: contains dot-dot")
    ∧ delete_file idOracle [] "../../etc/passwd" false
      = ([], .error
          "Security validation failed: Path traversal not allowed: contains dot-dot") :=
  gated_ops_reject_traversal idOracle [] "../../etc/passwd" "x" false (by decide)

/- ================================================================
   C5 / C6 - chunked file scanning
   (`filesystem/commands/scanning.rs`, `scan_files_chunked`)
   ================================================================ -/

/-- The `FileInfoChunk` record as constructed in `scanning.rs` (path,
leaf name, depth, size, mtime, extension, directory flag). -/
structure FileInfoChunk where
  path : String
  name : String
  depth : Nat
  size : Nat
  last_modified : Nat
  extension : String
  is_directory : Bool
deriving Repr, DecidableEq

/-- The `ScanFilesResult` record from `core/types.rs`. -/
structure ScanFilesResult where
  files : List FileInfoChunk
  has_more : Bool
deriving Repr, DecidableEq

/-- One entry yielded by the ignore-aware walker: whether it is a file,
its metadata (`none` models a `metadata()` error; both metadata reads in
the loop body observe the same result), and the path fields. -/
structure WalkEntry where
  isFile : Bool
  metadata : Option (Nat × Nat)
  path : String
  name : String
  ext : String
deriving Repr, DecidableEq

/-- `MAX_FILES_SCAN` in `scanning.rs`: 100,000. -/
def MAX_FILES_SCAN : Nat := 100000

/-- The collection loop of `scan_files_chunked` (`scanning.rs` lines
40-98): walk entries in order, break when `scanned_count > MAX_FILES_SCAN`
(checked before processing each entry), skip walker errors, non-files,
files over 64 MiB and entries whose metadata read fails, and push a
record (with `depth := 0`, `is_directory := false`) for each kept file,
incrementing the scanned count. -/
def collectLoop : List (Except Unit WalkEntry) → Nat → List FileInfoChunk →
    List FileInfoChunk
  | [], _, acc => acc
  | item :: rest, scanned_count, acc =>
    if scanned_count > MAX_FILES_SCAN then acc
    else
      match item with
      | .error _ => collectLoop rest scanned_count acc
      | .ok e =>
        if !e.isFile then collectLoop rest scanned_count acc
        else
          match e.metadata with
          | none => collectLoop rest scanned_count acc
          | some (size, mtime) =>
            if size > 64 * 1024 * 1024 then collectLoop rest scanned_count acc
            else
              collectLoop rest (scanned_count + 1)
                (acc ++ [{ path := e.path, name := e.name, depth := 0,
                           size := size, last_modified := mtime,
                           extension := e.ext, is_directory := false }])

/-- The full file list collected by `scan_files_chunked` before
pagination. -/
def collectFiles (entries : List (Except Unit WalkEntry)) :
    List FileInfoChunk :=
  collectLoop entries 0 []

/-- The pagination step of `scan_files_chunked` (`scanning.rs` lines
100-117): `end_index = min (offset+limit) total`, `has_more` when
`end_index < total`, and the `[offset..end_index]` slice (empty when
`offset ≥ total`). -/
def paginate {α : Type} (all_files : List α) (offset limit : Nat) :
    List α × Bool :=
  let total_files := all_files.length
  let end_index := min (offset + limit) total_files
  let has_more := end_index < total_files
  let files :=
    if offset < total_files then (all_files.drop offset).take (end_index - offset)
    else []
  (files, has_more)

/-- `scan_files_chunked` from `scanning.rs`, lines 10-118: collect, then
paginate, then wrap in a success envelope (walker and metadata errors are
skipped inside the loop, so the command itself always succeeds). -/
def scan_files_chunked (entries : List (Except Unit WalkEntry))
    (offset limit : Nat) : TauriResult ScanFilesResult :=
  let all_files := collectFiles entries
  let p := paginate all_files offset limit
  TauriResult.mkSuccess { files := p.1, has_more := p.2 }

/-- A plain small file entry that the collection loop always keeps. -/
def okFileEntry : Except Unit WalkEntry :=
  .ok { isFile := true, metadata := some (1, 0), path := "f", name := "f",
        ext := "" }

/-- The record pushed by the collection loop for `okFileEntry`. -/
def okChunk : FileInfoChunk :=
  { path := "f", name := "f", depth := 0, size := 1, last_modified := 0,
    extension := "", is_directory := false }

/-- Unfolding step of the collection loop on a kept entry below the cap. -/
theorem collectLoop_okFileEntry_cons (rest : List (Except Unit WalkEntry))
    (scanned_count : Nat) (acc : List FileInfoChunk)
    (h : ¬ scanned_count > MAX_FILES_SCAN) :
    collectLoop (okFileEntry :: rest) scanned_count acc
      = collectLoop rest (scanned_count + 1) (acc ++ [okChunk]) := by
  simp [collectLoop, okFileEntry, okChunk, if_neg h]

/-- Closed form of the collection loop on a run of kept entries: the cap
check `scanned_count > MAX_FILES_SCAN` is strict, so exactly
`min k (MAX_FILES_SCAN + 1 - scanned_count)` further records are
collected. -/
theorem collectLoop_replicate_length (k scanned_count : Nat)
    (acc : List FileInfoChunk) :
    (collectLoop (List.replicate k okFileEntry) scanned_count acc).length
      = acc.length + min k (MAX_FILES_SCAN + 1 - scanned_count) := by
  induction k generalizing scanned_count acc with
  | zero => simp [collectLoop]
  | succ n ih =>
    rw [List.replicate_succ]
    by_cases h : scanned_count > MAX_FILES_SCAN
    · simp only [collectLoop, if_pos h]
      omega
    · rw [collectLoop_okFileEntry_cons _ _ _ h, ih]
      simp
      omega

/-- C5 counterexample: on a walk of 100,002 plain files the collection
loop keeps 100,001 records - one more than the claimed cap of 100,000 -
because the bailout test `scanned_count > MAX_FILES_SCAN` is strict and
runs before the entry that pushes the count past the cap. -/
theorem scan_cap_off_by_one :
    (collectFiles (List.replicate 100002 okFileEntry)).length = 100001
    ∧ ¬ (collectFiles (List.replicate 100002 okFileEntry)).length ≤ 100000 := by
  have h := collectLoop_replicate_length 100002 0 []
  unfold collectFiles
  rw [h]
  norm_num [MAX_FILES_SCAN]

/-- The collection loop never keeps more than
`MAX_FILES_SCAN + 1 - min scanned_count (MAX_FILES_SCAN + 1)` further
records. -/
theorem collectLoop_length_le (entries : List (Except Unit WalkEntry))
    (scanned_count : Nat) (acc : List FileInfoChunk) :
    (collectLoop entries scanned_count acc).length
      ≤ acc.length + (MAX_FILES_SCAN + 1 - min scanned_count (MAX_FILES_SCAN + 1)) := by
  induction entries generalizing scanned_count acc with
  | nil => simp [collectLoop]
  | cons item rest ih =>
    by_cases h : scanned_count > MAX_FILES_SCAN
    · simp only [collectLoop, if_pos h]
      omega
    · simp only [collectLoop, if_neg h]
      match item with
      | .error _ => exact ih scanned_count acc
      | .ok e =>
        by_cases hf : !e.isFile
        · simp only [hf, if_pos]
          exact ih scanned_count acc
        · simp only [hf, Bool.false_eq_true, if_neg, if_false]
          match e.metadata with
          | none => exact ih scanned_count acc
          | some (size, mtime) =>
            by_cases hs : size > 64 * 1024 * 1024
            · simp only [if_pos hs]
              exact ih scanned_count acc
            · simp only [if_neg hs]
              have := ih (scanned_count + 1)
                (acc ++ [{ path := e.path, name := e.name, depth := 0,
                           size := size, last_modified := mtime,
                           extension := e.ext, is_directory := false }])
              simp at this
              omega

/-- C5 amended: for every chunked scan request the scan collects at most
100,001 file records (the strict `>` bailout admits one record past the
100,000 cap); upon reaching the cap it stops the walk and the command
still returns a successful result, with no truncation flag (the
`ScanFilesResult` carries only the slice and `has_more`). -/
theorem scan_cap_and_success (entries : List (Except Unit WalkEntry))
    (offset limit : Nat) :
    (collectFiles entries).length ≤ 100001
    ∧ (scan_files_chunked entries offset limit).success = true
    ∧ (scan_files_chunked entries offset limit).error = none := by
  refine ⟨?_, rfl, rfl⟩
  have h := collectLoop_length_le entries 0 []
  unfold collectFiles
  simpa [MAX_FILES_SCAN] using h

/-- Successive chunked-scan pages: request the `(offset, limit)` window,
emit its slice, and continue at `offset + limit` while `has_more` holds.
The fuel bounds the number of requests (any fuel of at least
`all_files.length + 1` pages is enough when `limit > 0`). -/
def collectPages {α : Type} (all_files : List α) (limit : Nat) :
    Nat → Nat → List α
  | 0, _ => []
  | fuel + 1, offset =>
    let p := paginate all_files offset limit
    p.1 ++ (if p.2 then collectPages all_files limit fuel (offset + limit) else [])

/-- All pages of a chunked scan, starting at offset 0 with enough fuel. -/
def collectPagesTop {α : Type} (all_files : List α) (limit : Nat) : List α :=
  collectPages all_files limit (all_files.length + 1) 0

/-- The slice returned by `paginate` is exactly the
`(drop offset).take limit` window. -/
theorem paginate_files_eq {α : Type} (all_files : List α) (offset limit : Nat) :
    (paginate all_files offset limit).1 = (all_files.drop offset).take limit := by
  unfold paginate
  by_cases h : offset < all_files.length
  · simp only [if_pos h]
    rw [List.take_eq_take]
    simp
    omega
  · simp only [if_neg h]
    rw [List.drop_of_length_le (by omega)]
    simp

/-- `paginate` reports `has_more` exactly when records exist beyond
`offset + limit`. -/
theorem paginate_has_more_iff {α : Type} (all_files : List α)
    (offset limit : Nat) :
    (paginate all_files offset limit).2
      = decide (offset + limit < all_files.length) := by
  unfold paginate
  by_cases h : offset + limit < all_files.length
  · simp [h, min_eq_left (le_of_lt h)]
  · simp only [h, decide_eq_false_iff_not.mpr h]
    simp
    omega

/-- Concatenating pages from any starting offset recovers the dropped
suffix, given positive limit and enough fuel. -/
theorem collectPages_eq_drop {α : Type} (all_files : List α) (limit : Nat)
    (fuel offset : Nat)
    (hf : all_files.length ≤ offset + fuel * limit) :
    collectPages all_files limit fuel offset = all_files.drop offset := by
  induction fuel generalizing offset with
  | zero =>
    simp only [collectPages]
    rw [List.drop_of_length_le (by omega)]
  | succ n ih =>
    simp only [collectPages]
    rw [paginate_files_eq, paginate_has_more_iff]
    by_cases h : offset + limit < all_files.length
    · have hsm : (n + 1) * limit = n * limit + limit := Nat.succ_mul n limit
      rw [if_pos (by simpa using h), ih (offset + limit) (by omega)]
      rw [← List.drop_drop]
      exact List.take_append_drop limit (all_files.drop offset)
    · rw [if_neg (by simpa using h)]
      rw [List.take_of_length_le (by simp; omega), List.append_nil]

/-- C6: chunked scanning is a coherent pagination of the one collected
file list: the returned slice is the `(offset, limit)` window of that
list, `has_more` holds exactly when files exist beyond `offset + limit`,
concatenating successive `(offset, limit)` slices from offset 0 until
`has_more` is false yields the whole collected list (for positive limit),
and that whole list is what the single `(0, total)` request returns. -/
theorem scan_pagination_coherent (entries : List (Except Unit WalkEntry))
    (offset limit : Nat) (hl : 0 < limit) :
    (paginate (collectFiles entries) offset limit).1
      = ((collectFiles entries).drop offset).take limit
    ∧ (paginate (collectFiles entries) offset limit).2
      = decide (offset + limit < (collectFiles entries).length)
    ∧ collectPagesTop (collectFiles entries) limit = collectFiles entries
    ∧ (scan_files_chunked entries offset limit).data
      = some { files := ((collectFiles entries).drop offset).take limit,
               has_more := decide (offset + limit < (collectFiles entries).length) } := by
  refine ⟨paginate_files_eq _ _ _, paginate_has_more_iff _ _ _, ?_, ?_⟩
  · unfold collectPagesTop
    rw [collectPages_eq_drop (collectFiles entries) limit
      ((collectFiles entries).length + 1) 0 (by nlinarith)]
    rfl
  · show (TauriResult.mkSuccess
        (ScanFilesResult.mk (paginate (collectFiles entries) offset limit).1
          (paginate (collectFiles entries) offset limit).2)).data
      = some (ScanFilesResult.mk (((collectFiles entries).drop offset).take limit)
          (decide (offset + limit < (collectFiles entries).length)))
    rw [paginate_files_eq, paginate_has_more_iff]
    rfl

/-- Witness for C6 at a concrete walk of three files with limit 2:
pagination windows, `has_more`, page concatenation and the unbounded
request all agree. -/
theorem scan_pagination_coherent_witness :
    (paginate (collectFiles [okFileEntry, okFileEntry, okFileEntry]) 0 2).1
      = ((collectFiles [okFileEntry, okFileEntry, okFileEntry]).drop 0).take 2
    ∧ (paginate (collectFiles [okFileEntry, okFileEntry, okFileEntry]) 0 2).2
      = decide (0 + 2 < (collectFiles [okFileEntry, okFileEntry, okFileEntry]).length)
    ∧ collectPagesTop (collectFiles [okFileEntry, okFileEntry, okFileEntry]) 2
      = collectFiles [okFileEntry, okFileEntry, okFileEntry]
    ∧ (scan_files_chunked [okFileEntry, okFileEntry, okFileEntry] 0 2).data
      = some { files := ((collectFiles [okFileEntry, okFileEntry, okFileEntry]).drop 0).take 2,
               has_more := decide (0 + 2 < (collectFiles [okFileEntry, okFileEntry, okFileEntry]).length) } :=
  scan_pagination_coherent [okFileEntry, okFileEntry, okFileEntry] 0 2 (by decide)

/- ================================================================
   C4 / C8 - project search
   (`filesystem/commands/search.rs`)
   ================================================================ -/

/-- Rust `str::trim`, modelled over the character list. -/
def rustTrim (s : String) : String :=
  String.mk (((s.data.dropWhile Char.isWhitespace).reverse.dropWhile
    Char.isWhitespace).reverse)

/-- Strip one trailing carriage return, as Rust `str::lines` does. -/
def stripCR (l : List Char) : List Char :=
  if l.getLast? == some '\r' then l.dropLast else l

/-- Rust `str::lines`: split on newline, with no trailing empty line for
a trailing newline, a single empty line for "\n", and nothing for "". -/
def rustLines (s : String) : List String :=
  if s.data.isEmpty then []
  else
    let parts := splitCharAux '\n' s.data []
    let parts := if parts.getLast? == some [] then parts.dropLast else parts
    parts.map (fun l => String.mk (stripCR l))

/-- A regex value is modelled by its `find_iter` behaviour on a line: the
list of (start, end) spans of the successive non-overlapping leftmost
matches.  Offsets index the character list of the line. -/
def Matcher : Type := String → List (Nat × Nat)

/-- The `SearchOptions` payload of `search.rs`. -/
structure SearchOptions where
  case_sensitive : Bool
  whole_word : Bool
  use_regex : Bool
  include_file_types : List String
  exclude_file_types : List String
  exclude_directories : List String
deriving Repr, DecidableEq

/-- The `SearchMatch` record of `search.rs`. -/
structure SearchMatch where
  file : String
  line : Nat
  column : Nat
  text : String
  match_start : Nat
  match_end : Nat
deriving Repr, DecidableEq

/-- The `SearchResult` record of `search.rs` (one file). -/
structure SearchResult where
  file : String
  «matches» : List SearchMatch
  total_matches : Nat
deriving Repr, DecidableEq

/-- The `SearchData` record of `search.rs` (whole request). -/
structure SearchData where
  results : List SearchResult
  total_matches : Nat
  files_searched : Nat
  total_files : Nat
deriving Repr, DecidableEq

/-- A word character for the word-boundary heuristic: alphanumeric or
underscore (the regex `\b` class). -/
def isWordChar (c : Char) : Bool :=
  c.isAlphanum || c == '_'

/-- Regex `\b`: a word boundary sits at position `p` of `full` iff
exactly one of the neighbouring characters is a word character. -/
def isBoundary (full : List Char) (p : Nat) : Bool :=
  let before := if p = 0 then false else isWordChar (full.getD (p - 1) ' ')
  let after := if p ≥ full.length then false else isWordChar (full.getD p ' ')
  before != after

/-- `find_iter` of an escaped literal: leftmost non-overlapping
occurrences, advancing by the match length after a match and by one
character otherwise.  Fuel bounds the scan (hay length + 1 suffices). -/
def findOccAux (needle : List Char) : Nat → List Char → Nat → List (Nat × Nat)
  | 0, _, _ => []
  | fuel + 1, hay, i =>
    if listIsPrefix needle hay then
      (i, i + needle.length)
        :: findOccAux needle fuel (hay.drop needle.length) (i + needle.length)
    else
      match hay with
      | [] => []
      | _ :: t => findOccAux needle fuel t (i + 1)

/-- `find_iter` of an escaped literal wrapped in `\b...\b`: as
`findOccAux` but a candidate also needs word boundaries on both sides
(a failed candidate advances by one character, as the regex engine
does). -/
def findWordOccAux (needle full : List Char) :
    Nat → List Char → Nat → List (Nat × Nat)
  | 0, _, _ => []
  | fuel + 1, hay, i =>
    if listIsPrefix needle hay
        && isBoundary full i && isBoundary full (i + needle.length) then
      (i, i + needle.length)
        :: findWordOccAux needle full fuel (hay.drop needle.length)
            (i + needle.length)
    else
      match hay with
      | [] => []
      | _ :: t => findWordOccAux needle full fuel t (i + 1)

/-- Semantics of the regex built in the non-regex branch of
`build_search_regex`: the escaped query as a literal, wrapped in
word-boundary anchors when `whole_word`, case-insensitive (by
lowercasing both sides) unless `case_sensitive`. -/
def literalMatcher (case_sensitive whole_word : Bool) (query : String) :
    Matcher := fun line =>
  let needle := if case_sensitive then query.data else query.data.map Char.toLower
  let hay := if case_sensitive then line.data else line.data.map Char.toLower
  if whole_word then findWordOccAux needle hay (hay.length + 1) hay 0
  else findOccAux needle (hay.length + 1) hay 0

/-- `build_search_regex` from `search.rs`, lines 305-320.  `compile` is
the regex-crate compilation oracle for the `useRegex` branch (`none`
models a pattern that fails to compile); the non-regex branch always
succeeds and behaves as `literalMatcher`.  The error text drops the
interpolated compiler message. -/
def build_search_regex (compile : String → Option Matcher) (query : String)
    (opts : SearchOptions) : Except String Matcher :=
  if opts.use_regex then
    match compile query with
    | some m => .ok m
    | none => .error "Invalid regex"
  else
    .ok (literalMatcher opts.case_sensitive opts.whole_word query)

/-- `MAX_MATCHES_PER_FILE` in `search_in_content`: 20. -/
def MAX_MATCHES_PER_FILE : Nat := 20

/-- The match record built by `search_in_content` for span `p` on the
0-indexed line `n`: 1-based line and column, the full line as text, and
the span offsets within the line. -/
def mkSearchMatch (path line : String) (n : Nat) (p : Nat × Nat) :
    SearchMatch :=
  { file := path, line := n + 1, column := p.1 + 1, text := line,
    match_start := p.1, match_end := p.2 }

/-- The inner loop of `search_in_content`: append a `SearchMatch` for
each span found on the line, stopping at the per-file cap. -/
def pushMatches (path line : String) (lineNum : Nat) :
    List (Nat × Nat) → List SearchMatch → List SearchMatch
  | [], acc => acc
  | p :: rest, acc =>
    if acc.length ≥ MAX_MATCHES_PER_FILE then acc
    else pushMatches path line lineNum rest
      (acc ++ [mkSearchMatch path line lineNum p])

/-- The outer loop of `search_in_content`: lines in order with their
0-based index, stopping at the per-file cap. -/
def contentLoop (m : Matcher) (path : String) :
    List (Nat × String) → List SearchMatch → List SearchMatch
  | [], acc => acc
  | il :: rest, acc =>
    if acc.length ≥ MAX_MATCHES_PER_FILE then acc
    else contentLoop m path rest (pushMatches path il.2 il.1 (m il.2) acc)

/-- `search_in_content` from `search.rs`, lines 322-350. -/
def search_in_content (m : Matcher) (content path : String) :
    List SearchMatch :=
  contentLoop m path (rustLines content).enum []

/-- One file met by the search walker: the file flag, its path, the
string form of its parent path, `extension()` (None for no extension),
the content (`none` models a `read_to_string` failure) and the metadata
size (used by the streaming variant's 1 MiB skip). -/
structure SearchFile where
  isFile : Bool
  path : String
  parentStr : String
  ext : Option String
  content : Option String
  size : Nat
deriving Repr, DecidableEq

/-- The extension filter shared by both search commands: when the file
has an extension, it must be in the include list (if non-empty) and not
in the exclude list; files without an extension bypass both filters, as
in the source. -/
def extAllowed (ext : Option String) (include_types exclude_types : List String) :
    Bool :=
  match ext with
  | none => true
  | some e =>
    let ext_with_dot := "." ++ e
    (include_types.isEmpty || include_types.contains ext_with_dot)
      && !(exclude_types.contains ext_with_dot)

/-- `is_file_type_allowed` from `search.rs`, lines 365-394: parent-path
exclusion by substring, then the extension filter. -/
def is_file_type_allowed (f : SearchFile) (opts : SearchOptions) : Bool :=
  !(opts.exclude_directories.any (fun d => strContains f.parentStr d))
    && extAllowed f.ext opts.include_file_types opts.exclude_file_types

/-- Accumulator of the bulk search loop. -/
structure BulkState where
  results : List SearchResult
  total_matches : Nat
  files_searched : Nat
deriving Repr, DecidableEq

/-- The file loop of `search_in_project` (`search.rs` lines 109-171):
skip walker errors, non-files, excluded directories and filtered
extensions; count the file as searched; skip unreadable files; record
non-empty match lists; stop when the running match total exceeds
10,000. -/
def bulkLoop (m : Matcher) (opts : SearchOptions) :
    List (Except Unit SearchFile) → BulkState → BulkState
  | [], st => st
  | item :: rest, st =>
    match item with
    | .error _ => bulkLoop m opts rest st
    | .ok f =>
      if !f.isFile then bulkLoop m opts rest st
      else if opts.exclude_directories.any (fun d => strContains f.parentStr d) then
        bulkLoop m opts rest st
      else if !(extAllowed f.ext opts.include_file_types opts.exclude_file_types) then
        bulkLoop m opts rest st
      else
        let st1 : BulkState :=
          { st with files_searched := st.files_searched + 1 }
        match f.content with
        | none => bulkLoop m opts rest st1
        | some content =>
          let file_matches := search_in_content m content f.path
          let st2 : BulkState :=
            if file_matches.isEmpty then st1
            else
              { st1 with
                total_matches := st1.total_matches + file_matches.length,
                results := st1.results
                  ++ [{ file := f.path, «matches» := file_matches,
                        total_matches := file_matches.length }] }
          if st2.total_matches > 10000 then st2
          else bulkLoop m opts rest st2

/-- `search_in_project` from `search.rs`, lines 59-186: reject an empty
(after trim) query, reject a missing or non-directory project path
(`dirExists`), build the regex (a compile failure propagates as a hard
command error, via `?`), pre-count the files, run the loop, and wrap the
aggregate in a success envelope. -/
def search_in_project (dirExists : Bool)
    (entries : List (Except Unit SearchFile))
    (compile : String → Option Matcher) (query : String)
    (opts : SearchOptions) : Except String (TauriResult SearchData) :=
  if (rustTrim query).isEmpty then
    .ok (TauriResult.mkError "Search query cannot be empty")
  else if !dirExists then
    .ok (TauriResult.mkError "Invalid project path")
  else
    match build_search_regex compile query opts with
    | .error e => .error e
    | .ok m =>
      let total_files := (entries.filter (fun it =>
        match it with
        | .ok f => f.isFile
        | .error _ => false)).length
      let st := bulkLoop m opts entries ⟨[], 0, 0⟩
      .ok (TauriResult.mkSuccess
        ⟨st.results, st.total_matches, st.files_searched, total_files⟩)

/-- `search_in_file` from `search.rs`, lines 352-363: files over 1 MiB
yield no matches; a read failure is an error the caller logs and
skips. -/
def search_in_file (m : Matcher) (f : SearchFile) :
    Except Unit (List SearchMatch) :=
  if f.size > 1024 * 1024 then .ok []
  else
    match f.content with
    | none => .error ()
    | some content => .ok (search_in_content m content f.path)

/-- Accumulator of the streaming search loop. -/
structure StreamState where
  results : List SearchResult
  total_matches : Nat
  files_searched : Nat
  total_files_found : Nat
deriving Repr, DecidableEq

/-- The file loop of `search_in_project_streaming` (`search.rs` lines
236-283): cap check at the top of each iteration, per-file filters, the
1 MiB-guarded search, and a second cap check after recording a file. -/
def streamLoop (m : Matcher) (opts : SearchOptions) (max_results : Nat) :
    List (Except Unit SearchFile) → StreamState → StreamState
  | [], st => st
  | item :: rest, st =>
    if st.total_matches ≥ max_results then st
    else
      match item with
      | .error _ => streamLoop m opts max_results rest st
      | .ok f =>
        if !f.isFile then streamLoop m opts max_results rest st
        else
          let st1 : StreamState :=
            { st with total_files_found := st.total_files_found + 1 }
          if !(is_file_type_allowed f opts) then
            streamLoop m opts max_results rest st1
          else
            let st2 : StreamState :=
              { st1 with files_searched := st1.files_searched + 1 }
            match search_in_file m f with
            | .error _ => streamLoop m opts max_results rest st2
            | .ok file_matches =>
              let st3 : StreamState :=
                if file_matches.isEmpty then st2
                else
                  { st2 with
                    total_matches := st2.total_matches + file_matches.length,
                    results := st2.results
                      ++ [{ file := f.path, «matches» := file_matches,
                            total_matches := file_matches.length }] }
              if st3.total_matches ≥ max_results then st3
              else streamLoop m opts max_results rest st3

/-- `search_in_project_streaming` from `search.rs`, lines 190-301: the
query must be non-empty and at least 2 characters after trim; then the
path check, the regex build (compile failure propagates as a hard
error), the capped loop, and the success envelope. -/
def search_in_project_streaming (dirExists : Bool)
    (entries : List (Except Unit SearchFile))
    (compile : String → Option Matcher) (query : String)
    (opts : SearchOptions) (max_results? : Option Nat) :
    Except String (TauriResult SearchData) :=
  if (rustTrim query).isEmpty || (rustTrim query).length < 2 then
    .ok (TauriResult.mkError "Search query must be at least 2 characters")
  else
    let max_results := max_results?.getD 1000
    if !dirExists then
      .ok (TauriResult.mkError "Invalid project path")
    else
      match build_search_regex compile query opts with
      | .error e => .error e
      | .ok m =>
        let st := streamLoop m opts max_results entries ⟨[], 0, 0, 0⟩
        .ok (TauriResult.mkSuccess
          ⟨st.results, st.total_matches, st.files_searched,
            st.total_files_found⟩)

/-- Search options with every flag off and no filters. -/
def defaultSearchOpts : SearchOptions :=
  ⟨false, false, false, [], [], []⟩

/-- Search options with only `useRegex` set. -/
def regexSearchOpts : SearchOptions :=
  ⟨false, false, true, [], [], []⟩

/-- C4 counterexample: the single-character query "a" is rejected by the
streaming command but accepted by the bulk command, which runs the search
and returns a success envelope - so it is not true that both commands
return a Validation error for every empty-or-single-character query. -/
theorem bulk_search_accepts_single_char :
    (rustTrim "a").length = 1
    ∧ search_in_project true [] (fun _ => none) "a" defaultSearchOpts
        = .ok (TauriResult.mkSuccess ⟨[], 0, 0, 0⟩)
    ∧ (search_in_project_streaming true [] (fun _ => none) "a"
          defaultSearchOpts none)
        = .ok (TauriResult.mkError "Search query must be at least 2 characters") := by
  refine ⟨by decide, by decide, by decide⟩

/-- C4 amended: the streaming command rejects every query that is empty
or shorter than 2 characters after trimming with a Validation error; the
bulk command rejects only queries that are empty after trimming (a
single-character query is searched and yields a success envelope); and
for both commands a `useRegex` query that fails to compile makes the
command fail with an invalid-regex error (propagated as a hard command
error rather than an error envelope). -/
theorem search_query_validation (dirExists : Bool)
    (entries : List (Except Unit SearchFile))
    (compile : String → Option Matcher) (query : String)
    (opts : SearchOptions) (mr : Option Nat) :
    ((rustTrim query).isEmpty = true →
        search_in_project dirExists entries compile query opts
          = .ok (TauriResult.mkError "Search query cannot be empty"))
    ∧ (((rustTrim query).isEmpty = true ∨ (rustTrim query).length < 2) →
        search_in_project_streaming dirExists entries compile query opts mr
          = .ok (TauriResult.mkError "Search query must be at least 2 characters"))
    ∧ ((rustTrim query).isEmpty = false → dirExists = true →
        opts.use_regex = true → compile query = none →
        search_in_project dirExists entries compile query opts
          = .error "Invalid regex")
    ∧ ((rustTrim query).isEmpty = false → ¬ (rustTrim query).length < 2 →
        dirExists = true → opts.use_regex = true → compile query = none →
        search_in_project_streaming dirExists entries compile query opts mr
          = .error "Invalid regex")
    ∧ ((rustTrim query).isEmpty = false → dirExists = true →
        opts.use_regex = false →
        ∃ d, search_in_project dirExists entries compile query opts
          = .ok (TauriResult.mkSuccess d)) := by
  refine ⟨?_, ?_, ?_, ?_, ?_⟩
  · intro h
    unfold search_in_project
    simp [h]
  · intro h
    unfold search_in_project_streaming
    rcases h with h | h
    · simp [h]
    · simp [h]
  · intro h hd hr hc
    unfold search_in_project build_search_regex
    simp [h, hd, hr, hc]
  · intro h hne hd hr hc
    unfold search_in_project_streaming build_search_regex
    simp [h, hne, hd, hr, hc]
  · intro h hd hr
    unfold search_in_project build_search_regex
    simp only [h, hd, hr]
    simp

/-- Witness for the C4 amended theorem: the whitespace query is rejected
by the bulk command with the empty-query Validation error, and a
non-compiling regex query makes the streaming command fail with the
invalid-regex error. -/
theorem search_query_validation_witness :
    search_in_project true [] (fun _ => none) " " defaultSearchOpts
      = .ok (TauriResult.mkError "Search query cannot be empty")
    ∧ search_in_project_streaming true [] (fun _ => none) "ab"
        regexSearchOpts none
      = .error "Invalid regex" :=
  ⟨(search_query_validation true [] (fun _ => none) " " defaultSearchOpts
      none).1 (by decide),
   (search_query_validation true [] (fun _ => none) "ab" regexSearchOpts
      none).2.2.2.1 (by decide) (by decide) rfl rfl rfl⟩

/-- Reported order on matches: strictly later line, or same line with
the earlier match ending at or before the later match starts
(non-overlapping, in order). -/
def searchMatchOrder (a b : SearchMatch) : Prop :=
  a.line < b.line ∨ (a.line = b.line ∧ a.match_end ≤ b.match_start)

/-- Everything `pushMatches` emits is either from the accumulator or a
`mkSearchMatch` of one of the spans. -/
theorem mem_pushMatches (path line : String) (n : Nat) :
    ∀ (ps : List (Nat × Nat)) (acc : List SearchMatch),
      ∀ sm ∈ pushMatches path line n ps acc,
        sm ∈ acc ∨ ∃ p ∈ ps, sm = mkSearchMatch path line n p := by
  intro ps
  induction ps with
  | nil =>
    intro acc sm h
    exact Or.inl h
  | cons p rest ih =>
    intro acc sm h
    unfold pushMatches at h
    by_cases hc : acc.length ≥ MAX_MATCHES_PER_FILE
    · rw [if_pos hc] at h
      exact Or.inl h
    · rw [if_neg hc] at h
      rcases ih _ sm h with hin | ⟨q, hq, heq⟩
      · rcases List.mem_append.mp hin with hin | hin
        · exact Or.inl hin
        · refine Or.inr ⟨p, List.mem_cons_self p rest, ?_⟩
          simpa [mkSearchMatch] using List.mem_singleton.mp hin
      · exact Or.inr ⟨q, List.mem_cons_of_mem p hq, heq⟩

/-- Everything `contentLoop` emits is either from the accumulator or a
`mkSearchMatch` of a span of one of the enumerated lines. -/
theorem mem_contentLoop (m : Matcher) (path : String) :
    ∀ (l : List (Nat × String)) (acc : List SearchMatch),
      ∀ sm ∈ contentLoop m path l acc,
        sm ∈ acc ∨ ∃ il ∈ l, ∃ p ∈ m il.2, sm = mkSearchMatch path il.2 il.1 p := by
  intro l
  induction l with
  | nil =>
    intro acc sm h
    exact Or.inl h
  | cons il rest ih =>
    intro acc sm h
    unfold contentLoop at h
    by_cases hc : acc.length ≥ MAX_MATCHES_PER_FILE
    · rw [if_pos hc] at h
      exact Or.inl h
    · rw [if_neg hc] at h
      rcases ih _ sm h with hin | ⟨jl, hjl, q, hq, heq⟩
      · rcases mem_pushMatches path il.2 il.1 (m il.2) acc sm hin with
          hin | ⟨p, hp, heq⟩
        · exact Or.inl hin
        · exact Or.inr ⟨il, List.mem_cons_self il rest, p, hp, heq⟩
      · exact Or.inr ⟨jl, List.mem_cons_of_mem il hjl, q, hq, heq⟩

/-- The second components of `List.enumFrom` are members of the list. -/
theorem snd_mem_of_mem_enumFrom {α : Type} :
    ∀ (l : List α) (n : Nat) (p : Nat × α), p ∈ List.enumFrom n l → p.2 ∈ l := by
  intro l
  induction l with
  | nil =>
    intro n p h
    simp [List.enumFrom] at h
  | cons a rest ih =>
    intro n p h
    rw [List.enumFrom] at h
    rcases List.mem_cons.mp h with h | h
    · rw [h]
      exact List.mem_cons_self a rest
    · exact List.mem_cons_of_mem a (ih (n + 1) p h)

/-- A `getLast? = some` element is a member. -/
theorem mem_of_getLast?_eq {α : Type} :
    ∀ (l : List α) (a : α), l.getLast? = some a → a ∈ l := by
  intro l
  induction l with
  | nil =>
    intro a h
    simp at h
  | cons x rest ih =>
    intro a h
    match rest, h with
    | [], h =>
      simp at h
      rw [h]
      exact List.mem_singleton_self _
    | y :: t, h =>
      rw [List.getLast?_cons_cons] at h
      exact List.mem_cons_of_mem x (ih a h)

/-- Appending the per-line matches preserves the reported order, given
ordered non-overlapping spans, an accumulator whose lines do not exceed
the new line number, and compatibility of the accumulator's last match
with the first new span. -/
theorem pushMatches_chain (path line : String) (n : Nat) :
    ∀ (ps : List (Nat × Nat)) (acc : List SearchMatch),
      List.Chain' searchMatchOrder acc →
      (∀ sm ∈ acc, sm.line ≤ n + 1) →
      (∀ sm, acc.getLast? = some sm → ∀ p, ps.head? = some p →
        searchMatchOrder sm (mkSearchMatch path line n p)) →
      List.Chain' (fun p q : Nat × Nat => p.2 ≤ q.1) ps →
      List.Chain' searchMatchOrder (pushMatches path line n ps acc)
      ∧ ∀ sm ∈ pushMatches path line n ps acc, sm.line ≤ n + 1 := by
  intro ps
  induction ps with
  | nil =>
    intro acc hch hline _ _
    exact ⟨hch, hline⟩
  | cons p rest ih =>
    intro acc hch hline hlast hps
    unfold pushMatches
    by_cases hc : acc.length ≥ MAX_MATCHES_PER_FILE
    · simp only [if_pos hc]
      exact ⟨hch, hline⟩
    · simp only [if_neg hc]
      have hchx : List.Chain' searchMatchOrder (acc ++ [mkSearchMatch path line n p]) := by
        rw [List.chain'_append]
        refine ⟨hch, List.chain'_singleton _, ?_⟩
        intro x hx y hy
        simp at hy
        rw [← hy]
        exact hlast x hx p rfl
      have hlinex : ∀ sm ∈ acc ++ [mkSearchMatch path line n p], sm.line ≤ n + 1 := by
        intro sm hsm
        rcases List.mem_append.mp hsm with hsm | hsm
        · exact hline sm hsm
        · rw [List.mem_singleton.mp hsm]
          exact Nat.le_refl _
      have hlastx : ∀ sm, (acc ++ [mkSearchMatch path line n p]).getLast? = some sm →
          ∀ q, rest.head? = some q →
          searchMatchOrder sm (mkSearchMatch path line n q) := by
        intro sm hsm q hq
        have hl : (acc ++ [mkSearchMatch path line n p]).getLast?
            = some (mkSearchMatch path line n p) := by
          rw [List.getLast?_append_cons]
          rfl
        rw [hl] at hsm
        injection hsm with hsm
        rw [← hsm]
        refine Or.inr ⟨rfl, ?_⟩
        have := (List.chain'_cons'.mp hps).1 q hq
        simpa [mkSearchMatch] using this
      exact ih _ hchx hlinex hlastx (List.chain'_cons'.mp hps).2

/-- The outer loop preserves the reported order across lines: matches on
later lines are strictly later in the `searchMatchOrder`. -/
theorem contentLoop_chain (m : Matcher) (path : String) :
    ∀ (lines : List String) (n : Nat) (acc : List SearchMatch),
      List.Chain' searchMatchOrder acc →
      (∀ sm ∈ acc, sm.line ≤ n) →
      (∀ line ∈ lines, List.Chain' (fun p q : Nat × Nat => p.2 ≤ q.1) (m line)) →
      List.Chain' searchMatchOrder
        (contentLoop m path (List.enumFrom n lines) acc) := by
  intro lines
  induction lines with
  | nil =>
    intro n acc hch _ _
    simpa [List.enumFrom, contentLoop] using hch
  | cons line rest ih =>
    intro n acc hch hline ho
    rw [List.enumFrom]
    unfold contentLoop
    by_cases hc : acc.length ≥ MAX_MATCHES_PER_FILE
    · simp only [if_pos hc]
      exact hch
    · simp only [if_neg hc]
      have hp := pushMatches_chain path line n (m line) acc hch
        (fun sm hsm => Nat.le_succ_of_le (hline sm hsm))
        (fun sm hsm p _ => Or.inl (by
          have := hline sm (mem_of_getLast?_eq acc sm hsm)
          simp [mkSearchMatch]
          omega))
        (ho line (List.mem_cons_self line rest))
      exact ih (n + 1) _ hp.1 hp.2
        (fun l hl => ho l (List.mem_cons_of_mem line hl))

/-- The `find_iter` behaviour of the compiled pattern "b*" (a valid
regex whose query text passes both commands' length validation) on a
line containing no `b`: an empty match at every position, as the regex
crate reports for a star pattern. -/
def starMatcher : Matcher := fun line =>
  (List.range (line.length + 1)).map (fun i => (i, i))

/-- C8 counterexample: with the regex "b*" (admissible: two characters,
compiles) `search_in_content` reports empty-span matches - on the line
"a" the first reported match has `match_start = match_end = 0` - so it
is not true that every reported match satisfies
`match_end > match_start`. -/
theorem search_match_empty_span :
    search_in_content starMatcher "a" "f"
      = [{ file := "f", line := 1, column := 1, text := "a",
           match_start := 0, match_end := 0 },
         { file := "f", line := 1, column := 2, text := "a",
           match_start := 1, match_end := 1 }]
    ∧ ((search_in_content starMatcher "a" "f").all
        (fun sm => decide (sm.match_start < sm.match_end))) = false
    ∧ (rustTrim "b*").isEmpty = false
    ∧ ¬ (rustTrim "b*").length < 2 := by
  refine ⟨by decide, by decide, by decide, by decide⟩

/-- C8 amended: for spans within line bounds with `start ≤ end` (what
the regex crate guarantees; empty spans are possible for patterns such
as "b*"), every reported match has a 1-based line and column, satisfies
`match_start ≤ match_end` (strict whenever the pattern cannot match
empty), `match_end` within the reported full-line text, and
`column = match_start + 1`; and the reported list is ordered: strictly
increasing line, with non-overlapping in-order spans within a line. -/
theorem search_match_geometry (m : Matcher) (content path : String)
    (hb : ∀ line ∈ rustLines content, ∀ p ∈ m line,
      p.1 ≤ p.2 ∧ p.2 ≤ line.length)
    (ho : ∀ line ∈ rustLines content,
      List.Chain' (fun p q : Nat × Nat => p.2 ≤ q.1) (m line)) :
    (∀ sm ∈ search_in_content m content path,
      1 ≤ sm.line ∧ 1 ≤ sm.column ∧ sm.match_start ≤ sm.match_end
        ∧ sm.match_end ≤ sm.text.length ∧ sm.column = sm.match_start + 1)
    ∧ List.Chain' searchMatchOrder (search_in_content m content path)
    ∧ ((∀ line ∈ rustLines content, ∀ p ∈ m line, p.1 < p.2) →
        ∀ sm ∈ search_in_content m content path,
          sm.match_start < sm.match_end) := by
  have henum : (rustLines content).enum = List.enumFrom 0 (rustLines content) := rfl
  refine ⟨?_, ?_, ?_⟩
  · intro sm hsm
    rcases mem_contentLoop m path _ [] sm hsm with hin | ⟨il, hil, p, hp, heq⟩
    · simp at hin
    · rw [henum] at hil
      have hline := snd_mem_of_mem_enumFrom _ 0 il hil
      have hbp := hb il.2 hline p hp
      rw [heq]
      refine ⟨Nat.le_add_left 1 il.1, Nat.le_add_left 1 p.1, hbp.1, ?_, rfl⟩
      exact hbp.2
  · unfold search_in_content
    rw [henum]
    exact contentLoop_chain m path (rustLines content) 0 []
      (List.chain'_nil) (by intro sm hsm; simp at hsm) ho
  · intro hstrict sm hsm
    rcases mem_contentLoop m path _ [] sm hsm with hin | ⟨il, hil, p, hp, heq⟩
    · simp at hin
    · rw [henum] at hil
      have hline := snd_mem_of_mem_enumFrom _ 0 il hil
      rw [heq]
      exact hstrict il.2 hline p hp

/-- Executable check that successive spans are non-overlapping and in
order. -/
def spanChain : List (Nat × Nat) → Bool
  | [] => true
  | [_] => true
  | p :: q :: t => decide (p.2 ≤ q.1) && spanChain (q :: t)

/-- Soundness of `spanChain` for the span-ordering chain. -/
theorem spanChain_sound :
    ∀ l, spanChain l = true →
      List.Chain' (fun p q : Nat × Nat => p.2 ≤ q.1) l
  | [], _ => List.chain'_nil
  | [p], _ => List.chain'_singleton p
  | p :: q :: t, h => by
    simp only [spanChain, Bool.and_eq_true, decide_eq_true_eq] at h
    exact List.chain'_cons.mpr ⟨h.1, spanChain_sound (q :: t) h.2⟩

/-- Witness for the C8 amended theorem: a literal search for "foo" on a
two-line content; the reported matches satisfy every geometric bound and
the order property. -/
theorem search_match_geometry_witness :
    (∀ sm ∈ search_in_content (literalMatcher true false "foo")
        "foo bar foo\nbar foo" "f",
      1 ≤ sm.line ∧ 1 ≤ sm.column ∧ sm.match_start ≤ sm.match_end
        ∧ sm.match_end ≤ sm.text.length ∧ sm.column = sm.match_start + 1)
    ∧ List.Chain' searchMatchOrder
        (search_in_content (literalMatcher true false "foo")
          "foo bar foo\nbar foo" "f") := by
  have hoB : ∀ line ∈ rustLines "foo bar foo\nbar foo",
      spanChain (literalMatcher true false "foo" line) = true := by decide
  have h := search_match_geometry (literalMatcher true false "foo")
    "foo bar foo\nbar foo" "f" (by decide)
    (fun line hl => spanChain_sound _ (hoB line hl))
  exact ⟨h.1, h.2.1⟩

/- ================================================================
   C7 - file watcher idempotence (`filesystem/watcher.rs`,
   `start_watching`, lines 85-121)
   ================================================================ -/

/-- The substrings of the problematic-directory filter in
`watcher.rs`. -/
def PROBLEMATIC_PATTERNS : List String :=
  ["anaconda", "miniconda", "node_modules", ".npm", ".cache", "/tmp/",
   "/temp/", "/.local/", "/.vscode/", "/Library/", "/System/",
   "Program Files", "__pycache__"]

/-- `is_problematic_directory` from `watcher.rs`. -/
def is_problematic_directory (path : String) : Bool :=
  PROBLEMATIC_PATTERNS.any (fun pat => strContains path pat)

/-- The `watched_paths` map of the watcher holder: watcher id (the raw
path string `path.to_string_lossy()`) to the stored path. -/
abbrev WatcherState : Type := List (String × String)

/-- `start_watching` from `watcher.rs`, lines 85-121 (key handling only;
strategy selection and the debouncer registration, which do not affect
the key or the returned id, are abstracted into the single `store`
step).  The source computes `path_str` directly from the argument -
there is no canonicalization - checks the problematic filter, then the
already-watching test `watched_paths.contains_key(path_str)`, and
otherwise stores the watcher under `path_str` and returns `path_str`. -/
def start_watching (st : WatcherState) (path : String) :
    WatcherState × String :=
  if is_problematic_directory path then (st, path)
  else if (lookupKey st path).isSome then (st, path)
  else (st ++ [(path, path)], path)

/-- C7: the already-watching test compares raw path strings, not
canonical paths.  Watching "/ws" and then "/ws/." - two spellings of the
same canonical directory - registers a second watcher and returns the
new spelling as id, where the claim (and spec section 9, which notes the
dropped canonicalize step) requires the existing id "/ws" and no new
registration. -/
theorem start_watching_not_canonical :
    (start_watching [] "/ws").1 = [("/ws", "/ws")]
    ∧ (start_watching [("/ws", "/ws")] "/ws/.").1
        = [("/ws", "/ws"), ("/ws/.", "/ws/.")]
    ∧ (start_watching [("/ws", "/ws")] "/ws/.").2 = "/ws/."
    ∧ (start_watching [("/ws", "/ws")] "/ws").1 = [("/ws", "/ws")]
    ∧ (start_watching [("/ws", "/ws")] "/ws").2 = "/ws" := by
  refine ⟨by decide, by decide, by decide, by decide, by decide⟩

/- ================================================================
   C9 - PTY session close semantics (`terminal/commands.rs`)
   ================================================================ -/

/-- The per-session record of the `TerminalManager` map (PTY handle,
writer and reader channel are abstracted; the fields kept are those
`get_session_info` reports). -/
structure TermSession where
  id : String
  shell : String
  working_directory : String
  created_at : Nat
  last_activity : Nat
deriving Repr, DecidableEq

/-- The `TerminalSessionInfo` record of `terminal/commands.rs`. -/
structure TerminalSessionInfo where
  id : String
  shell : String
  working_directory : String
  created_at : Nat
  last_activity : Nat
  is_active : Bool
deriving Repr, DecidableEq

/-- The `sessions` map of the `TerminalManager`. -/
abbrev SessionMap : Type := List (String × TermSession)

/-- `close_session` from `terminal/commands.rs`, lines 298-304: remove
the record (a no-op for an unknown id) and return Ok. -/
def close_session (m : SessionMap) (session_id : String) :
    SessionMap × Except String Unit :=
  (eraseKey m session_id, .ok ())

/-- `send_input` from `terminal/commands.rs`, lines 204-230: look the
session up, failing with "Session ... not found"; the write to the PTY
master is abstracted as succeeding. -/
def send_input (m : SessionMap) (session_id : String) (_input : String) :
    Except String Unit :=
  match lookupKey m session_id with
  | none => .error ("Session " ++ session_id ++ " not found")
  | some _ => .ok ()

/-- `read_output` from `terminal/commands.rs`, lines 232-276: the same
lookup; the drained channel content is abstracted (`drained` is what the
bounded channel yields within the timeout). -/
def read_output (m : SessionMap) (session_id : String) (drained : String) :
    Except String String :=
  match lookupKey m session_id with
  | none => .error ("Session " ++ session_id ++ " not found")
  | some _ => .ok drained

/-- `resize_session` from `terminal/commands.rs`, lines 278-296. -/
def resize_session (m : SessionMap) (session_id : String)
    (_cols _rows : Nat) : Except String Unit :=
  match lookupKey m session_id with
  | none => .error ("Session " ++ session_id ++ " not found")
  | some _ => .ok ()

/-- `get_session_info` from `terminal/commands.rs`, lines 306-324. -/
def get_session_info (m : SessionMap) (session_id : String) :
    Except String TerminalSessionInfo :=
  match lookupKey m session_id with
  | none => .error ("Session " ++ session_id ++ " not found")
  | some s =>
    .ok { id := s.id, shell := s.shell,
          working_directory := s.working_directory,
          created_at := s.created_at, last_activity := s.last_activity,
          is_active := true }

/-- Unfolding equation of `lookupKey` on a cons cell. -/
theorem lookupKey_cons {β : Type} (e : String × β) (rest : List (String × β))
    (k : String) :
    lookupKey (e :: rest) k = if e.1 == k then some e.2 else lookupKey rest k :=
  rfl

/-- Looking up the erased key yields nothing. -/
theorem lookupKey_eraseKey_self {β : Type} :
    ∀ (m : List (String × β)) (k : String),
      lookupKey (eraseKey m k) k = none := by
  intro m k
  induction m with
  | nil => rfl
  | cons e rest ih =>
    by_cases h : e.1 = k
    · have hb : (e.1 != k) = false := by simp [h]
      rw [eraseKey, List.filter_cons, hb]
      simp only [Bool.false_eq_true, if_false]
      exact ih
    · have hb : (e.1 != k) = true := by simp [h]
      rw [eraseKey, List.filter_cons, hb]
      simp only [if_true]
      rw [lookupKey_cons]
      simp only [beq_iff_eq, h, if_false]
      exact ih

/-- Erasing one key leaves every other key's binding unchanged. -/
theorem lookupKey_eraseKey_other {β : Type} :
    ∀ (m : List (String × β)) (k k' : String), k' ≠ k →
      lookupKey (eraseKey m k) k' = lookupKey m k' := by
  intro m k k' hne
  induction m with
  | nil => rfl
  | cons e rest ih =>
    by_cases h : e.1 = k
    · have hb : (e.1 != k) = false := by simp [h]
      rw [eraseKey, List.filter_cons, hb]
      simp only [Bool.false_eq_true, if_false]
      rw [lookupKey_cons]
      have hk : (e.1 == k') = false := by
        simp only [beq_eq_false_iff_ne, ne_eq, h]
        exact fun hh => hne hh.symm
      rw [hk]
      simp only [Bool.false_eq_true, if_false]
      exact ih
    · have hb : (e.1 != k) = true := by simp [h]
      rw [eraseKey, List.filter_cons, hb]
      simp only [if_true]
      rw [lookupKey_cons, lookupKey_cons]
      by_cases h2 : e.1 = k'
      · simp [h2]
      · simp only [beq_iff_eq, h2, if_false]
        exact ih

/-- C9: closing a session always succeeds and removes exactly that one
session: afterwards send-input, read-output, resize and session-info on
that id all fail with the "session not found" error, while every other
id's session is untouched. -/
theorem close_session_removes (m : SessionMap) (session_id : String)
    (input drained : String) (cols rows : Nat) :
    (close_session m session_id).2 = .ok ()
    ∧ lookupKey (close_session m session_id).1 session_id = none
    ∧ send_input (close_session m session_id).1 session_id input
        = .error ("Session " ++ session_id ++ " not found")
    ∧ read_output (close_session m session_id).1 session_id drained
        = .error ("Session " ++ session_id ++ " not found")
    ∧ resize_session (close_session m session_id).1 session_id cols rows
        = .error ("Session " ++ session_id ++ " not found")
    ∧ get_session_info (close_session m session_id).1 session_id
        = .error ("Session " ++ session_id ++ " not found")
    ∧ (∀ other, other ≠ session_id →
        lookupKey (close_session m session_id).1 other = lookupKey m other) := by
  have hself := lookupKey_eraseKey_self m session_id
  refine ⟨rfl, hself, ?_, ?_, ?_, ?_, ?_⟩
  · unfold send_input close_session
    rw [show (eraseKey m session_id, (Except.ok () : Except String Unit)).1
        = eraseKey m session_id from rfl, hself]
  · unfold read_output close_session
    rw [show (eraseKey m session_id, (Except.ok () : Except String Unit)).1
        = eraseKey m session_id from rfl, hself]
  · unfold resize_session close_session
    rw [show (eraseKey m session_id, (Except.ok () : Except String Unit)).1
        = eraseKey m session_id from rfl, hself]
  · unfold get_session_info close_session
    rw [show (eraseKey m session_id, (Except.ok () : Except String Unit)).1
        = eraseKey m session_id from rfl, hself]
  · intro other hne
    exact lookupKey_eraseKey_other m session_id other hne

/-- Witness for C9 at a concrete one-session map: closing the session
makes every operation on its id fail with the session-not-found error. -/
theorem close_session_removes_witness :
    (close_session [("s1", ⟨"s1", "/bin/bash", "/tmp", 0, 0⟩)] "s1").2 = .ok ()
    ∧ send_input (close_session [("s1", ⟨"s1", "/bin/bash", "/tmp", 0, 0⟩)] "s1").1
        "s1" "ls" = .error "Session s1 not found" := by
  have h := close_session_removes [("s1", ⟨"s1", "/bin/bash", "/tmp", 0, 0⟩)]
    "s1" "ls" "" 80 24
  exact ⟨h.1, h.2.2.1⟩

/- ================================================================
   C10 - state-kernel collections (`core/state_collections.rs`,
   `StateCollection` trait)
   ================================================================ -/

/-- The categories of `AppError` in `core/errors.rs`. -/
inductive AppErrorCat where
  | filesystem
  | permission
  | ai
  | project
  | chat
  | config
  | network
  | validation
  | internal
deriving Repr, DecidableEq

/-- An `AppError` value: category, stable code, message (the optional
category-specific context fields are not used by the collection ops). -/
structure AppErrorM where
  category : AppErrorCat
  code : String
  message : String
deriving Repr, DecidableEq

/-- Constructor `AppError::internal` from `core/errors.rs`. -/
def AppErrorM.internalErr (code message : String) : AppErrorM :=
  { category := AppErrorCat.internal, code := code, message := message }

/-- `StateCollection::not_found_error`: an Internal ITEM_NOT_FOUND error
whose message names the item, the id and the collection (the quote
characters of the source's format string are dropped). -/
def not_found_error (itemName collName id : String) : AppErrorM :=
  AppErrorM.internalErr "ITEM_NOT_FOUND"
    (itemName ++ " " ++ id ++ " not found in " ++ collName)

/-- `StateCollection::add_item`: insert-or-replace under the item's own
id; always Ok. -/
def add_item {T : Type} (m : List (String × T)) (getId : T → String)
    (item : T) : List (String × T) × Except AppErrorM Unit :=
  (insertKey m (getId item) item, .ok ())

/-- `StateCollection::get_item`. -/
def get_item {T : Type} (m : List (String × T)) (id : String) : Option T :=
  lookupKey m id

/-- `StateCollection::update_item`: the same insert-or-replace as add;
always Ok. -/
def update_item {T : Type} (m : List (String × T)) (getId : T → String)
    (item : T) : List (String × T) × Except AppErrorM Unit :=
  (insertKey m (getId item) item, .ok ())

/-- `StateCollection::remove_item`: `map.remove(id)` succeeded iff the
id was present; otherwise the map is unchanged and the not-found error
is returned. -/
def remove_item {T : Type} (itemName collName : String)
    (m : List (String × T)) (id : String) :
    List (String × T) × Except AppErrorM Unit :=
  if (lookupKey m id).isSome then (eraseKey m id, .ok ())
  else (m, .error (not_found_error itemName collName id))

/-- `StateCollection::list_items`. -/
def list_items {T : Type} (m : List (String × T)) : List T :=
  m.map (fun e => e.2)

/-- `StateCollection::exists`. -/
def exists_item {T : Type} (m : List (String × T)) (id : String) : Bool :=
  (lookupKey m id).isSome

/-- `StateCollection::count`. -/
def count_items {T : Type} (m : List (String × T)) : Nat :=
  m.length

/-- `StateCollection::clear`. -/
def clear_items {T : Type} (_m : List (String × T)) : List (String × T) :=
  []

/-- C10: removing an id that is not in the collection returns the
Internal ITEM_NOT_FOUND error and leaves the collection unchanged; add
and update always return Ok (and list, exists, count and clear return
plain values, so they cannot fail either). -/
theorem state_collection_ops {T : Type} (m : List (String × T))
    (getId : T → String) (item : T) (id itemName collName : String)
    (h : lookupKey m id = none) :
    remove_item itemName collName m id
      = (m, .error (AppErrorM.internalErr "ITEM_NOT_FOUND"
          (itemName ++ " " ++ id ++ " not found in " ++ collName)))
    ∧ (remove_item itemName collName m id).2
        ≠ .ok ()
    ∧ (add_item m getId item).2 = .ok ()
    ∧ (update_item m getId item).2 = .ok ()
    ∧ exists_item m id = false
    ∧ count_items m = m.length
    ∧ list_items m = m.map (fun e => e.2)
    ∧ clear_items m = [] := by
  have hr : remove_item itemName collName m id
      = (m, .error (not_found_error itemName collName id)) := by
    unfold remove_item
    rw [h]
    rfl
  refine ⟨hr, ?_, rfl, rfl, ?_, rfl, rfl, rfl⟩
  · rw [hr]
    intro hc
    cases hc
  · unfold exists_item
    rw [h]
    rfl

/-- Witness for C10 on the empty chat-session collection (sessions
modelled by their id string): removing the unknown id "s9" fails with
the Internal ITEM_NOT_FOUND error while add and update succeed. -/
theorem state_collection_ops_witness :
    remove_item "Chat session" "chat_sessions"
        ([] : List (String × String)) "s9"
      = ([], .error (AppErrorM.internalErr "ITEM_NOT_FOUND"
          "Chat session s9 not found in chat_sessions"))
    ∧ (add_item ([] : List (String × String)) (fun s => s) "s1").2 = .ok () := by
  have h := state_collection_ops ([] : List (String × String))
    (fun s => s) "s1" "s9" "Chat session" "chat_sessions" rfl
  exact ⟨h.1, h.2.2.1⟩
